import Mathlib

/-!
Shallow embedding of the TTL cache (`src/lib/cache.ts`), the auth boundary
(`lib/auth.ts`, shipped unnamed) and the preview route
(`src/app/api/preview/route.ts`) of the strapi-umowa repository, together
with theorems settling the specification claims about them.

Time is wall-clock milliseconds (`Date.now()`), modelled as a `Nat` passed
explicitly to each operation that reads the clock.  The JavaScript `Map`
backing the cache is modelled as an association list with unique keys kept
in insertion order; `Map.set` replaces the first (only) binding in place or
appends, `Map.delete` removes the binding, iteration follows list order.
-/

namespace StrapiUmowa

/-- `CacheContent` from `cache.ts`: the cached payload and the absolute
expiry instant in milliseconds (`expiresAt`). -/
structure CacheContent (α : Type) where
  data : α
  expiresAt : Nat
  deriving DecidableEq, Repr

/-- The underlying `Map<string, CacheContent>` as an association list. -/
abbrev Store (α : Type) := List (String × CacheContent α)

/-- First value bound to `k` (JS `Map.get`). -/
def findVal (k : String) : Store α → Option (CacheContent α)
  | [] => none
  | p :: rest => if p.1 = k then some p.2 else findVal k rest

/-- JS `Map.set`: replace the binding of `k` in place, or append it. -/
def storeSet (k : String) (e : CacheContent α) : Store α → Store α
  | [] => [(k, e)]
  | p :: rest => if p.1 = k then (k, e) :: rest else p :: storeSet k e rest

/-- The `ApiCache` class: a wrapper around the backing map. -/
structure ApiCache (α : Type) where
  cache : Store α
  deriving DecidableEq, Repr

/-- `new ApiCache()`: the constructor creates an empty map. -/
def ApiCache.empty : ApiCache α := ⟨[]⟩

/-- `ApiCache.set(key, value, ttlSeconds)`:
`expiresAt = Date.now() + ttlSeconds * 1000`, then `Map.set`. -/
def ApiCache.set (c : ApiCache α) (key : String) (value : α)
    (ttlSeconds : Nat) (now : Nat) : ApiCache α :=
  ⟨storeSet key ⟨value, now + ttlSeconds * 1000⟩ c.cache⟩

/-- `ApiCache.delete(key)`: `Map.delete`, no error if absent. -/
def ApiCache.delete (c : ApiCache α) (key : String) : ApiCache α :=
  ⟨c.cache.filter (fun p => decide (p.1 ≠ key))⟩

/-- `ApiCache.get(key)`: `null` if not found; if `Date.now() > expiresAt`,
delete the entry and return `null`; otherwise return the cached data.
The returned pair is (JS return value, cache state after the call). -/
def ApiCache.get (c : ApiCache α) (key : String) (now : Nat) :
    Option α × ApiCache α :=
  match findVal key c.cache with
  | none => (none, c)
  | some cached =>
    if now > cached.expiresAt then
      (none, c.delete key)
    else
      (some cached.data, c)

/-- `ApiCache.clear()`: `Map.clear`. -/
def ApiCache.clear (_c : ApiCache α) : ApiCache α := ⟨[]⟩

/-- `ApiCache.keys()`: `Array.from(this.cache.keys())`. -/
def ApiCache.keys (c : ApiCache α) : List String := c.cache.map Prod.fst

/-- `ApiCache.cleanExpired()`: one scan deleting every entry with
`now > expiresAt`.  On a `Map` the loop of conditional deletes is exactly a
filter keeping the non-expired entries. -/
def ApiCache.cleanExpired (c : ApiCache α) (now : Nat) : ApiCache α :=
  ⟨c.cache.filter (fun p => decide (¬ now > p.2.expiresAt))⟩

/-! ### Basic lemmas about the backing store -/

theorem findVal_storeSet_self (m : Store α) (k : String) (e : CacheContent α) :
    findVal k (storeSet k e m) = some e := by
  induction m with
  | nil => simp [storeSet, findVal]
  | cons p rest ih =>
    by_cases h : p.1 = k
    · simp [storeSet, h, findVal]
    · simp [storeSet, h, findVal, ih]

theorem findVal_storeSet_ne (m : Store α) (k k2 : String) (e : CacheContent α)
    (h : k2 ≠ k) : findVal k2 (storeSet k e m) = findVal k2 m := by
  have hk : ¬ k = k2 := fun hh => h hh.symm
  induction m with
  | nil => simp [storeSet, findVal, hk]
  | cons p rest ih =>
    by_cases hp : p.1 = k
    · subst hp
      simp [storeSet, findVal, hk]
    · simp [storeSet, hp, findVal, ih]

theorem findVal_filter_of_pos (m : Store α) (k : String) (e : CacheContent α)
    (f : String × CacheContent α → Bool)
    (hfind : findVal k m = some e) (hf : f (k, e) = true) :
    findVal k (m.filter f) = some e := by
  induction m with
  | nil => simp [findVal] at hfind
  | cons p rest ih =>
    by_cases hp : p.1 = k
    · have hpe : p.2 = e := by
        have := hfind
        simp [findVal, hp] at this
        exact this
      have hpke : p = (k, e) := Prod.ext hp hpe
      subst hpke
      simp [List.filter_cons, hf, findVal]
    · have hfind2 : findVal k rest = some e := by
        have := hfind
        simp [findVal, hp] at this
        exact this
      cases hfp : f p with
      | true => simp [List.filter_cons, hfp, findVal, hp, ih hfind2]
      | false => simp [List.filter_cons, hfp, ih hfind2]

theorem not_mem_keys_delete (c : ApiCache α) (k : String) :
    k ∉ (c.delete k).keys := by
  intro hmem
  simp only [ApiCache.delete, ApiCache.keys, List.mem_map, List.mem_filter] at hmem
  obtain ⟨e, ⟨_hm, hne⟩, heq⟩ := hmem
  rw [heq] at hne
  simp at hne

theorem findVal_delete_ne (c : ApiCache α) (k k2 : String) (h : k2 ≠ k) :
    findVal k2 (c.delete k).cache = findVal k2 c.cache := by
  show findVal k2 (c.cache.filter (fun p => decide (p.1 ≠ k))) = findVal k2 c.cache
  induction c.cache with
  | nil => rfl
  | cons p rest ih =>
    rw [List.filter_cons]
    by_cases hpk : p.1 = k
    · rw [show (decide (p.1 ≠ k)) = false by simp [hpk]]
      rw [if_neg Bool.false_ne_true, ih]
      have hp2 : ¬ p.1 = k2 := by rw [hpk]; exact fun hh => h hh.symm
      simp [findVal, hp2]
    · rw [show (decide (p.1 ≠ k)) = true by simp [hpk]]
      rw [if_pos rfl]
      show (if p.1 = k2 then some p.2 else findVal k2 (rest.filter (fun p => decide (p.1 ≠ k))))
        = (if p.1 = k2 then some p.2 else findVal k2 rest)
      rw [ih]

/-! ### Claim C1 -/

/-- C1: for every key `k`, value `v` and positive TTL `t`, `set(k, v, t)`
followed by `get(k)` at any instant `now2` with `now2 ≤ expiresAt`
(`expiresAt = now1 + t seconds`) returns exactly the stored value `v`. -/
theorem set_then_get_within_ttl (c : ApiCache α) (k : String) (v : α)
    (t now1 now2 : Nat) (_ht : 0 < t) (hw : now2 ≤ now1 + t * 1000) :
    ((c.set k v t now1).get k now2).1 = some v := by
  unfold ApiCache.get
  rw [show (c.set k v t now1).cache = storeSet k ⟨v, now1 + t * 1000⟩ c.cache from rfl]
  rw [findVal_storeSet_self]
  simp [Nat.not_lt_of_le hw]

/-- Witness for C1 at a concrete input. -/
theorem set_then_get_within_ttl_witness :
    (((ApiCache.empty (α := Nat)).set "k" 42 60 0).get "k" 60000).1 = some 42 :=
  set_then_get_within_ttl ApiCache.empty "k" 42 60 0 60000 (by decide) (by decide)

/-! ### More lemmas about the backing store -/

theorem mem_keys_of_findVal (m : Store α) (k : String) (e : CacheContent α)
    (h : findVal k m = some e) : k ∈ m.map Prod.fst := by
  induction m with
  | nil => simp [findVal] at h
  | cons p rest ih =>
    by_cases hp : p.1 = k
    · simp [hp]
    · simp [findVal, hp] at h
      simp [ih h]

theorem findVal_eq_none_of_not_mem (m : Store α) (k : String)
    (h : k ∉ m.map Prod.fst) : findVal k m = none := by
  induction m with
  | nil => rfl
  | cons p rest ih =>
    simp only [List.map_cons, List.mem_cons] at h
    push_neg at h
    show (if p.1 = k then some p.2 else findVal k rest) = none
    rw [if_neg (fun hh => h.1 hh.symm), ih h.2]

theorem findVal_filter_some (m : Store α) (f : String × CacheContent α → Bool)
    (k : String) (e : CacheContent α) (hnd : (m.map Prod.fst).Nodup)
    (hsome : findVal k (m.filter f) = some e) :
    findVal k m = some e ∧ f (k, e) = true := by
  induction m with
  | nil => simp [findVal] at hsome
  | cons p rest ih =>
    simp only [List.map_cons, List.nodup_cons] at hnd
    rw [List.filter_cons] at hsome
    cases hfp : f p with
    | true =>
      rw [hfp, if_pos rfl] at hsome
      by_cases hp : p.1 = k
      · have hpe : p.2 = e := by
          have := hsome
          simp [findVal, hp] at this
          exact this
        have hpke : p = (k, e) := Prod.ext hp hpe
        subst hpke
        simp [findVal, hfp]
      · have hrec : findVal k (rest.filter f) = some e := by
          have := hsome
          simp [findVal, hp] at this
          exact this
        have := ih hnd.2 hrec
        simp [findVal, hp, this]
    | false =>
      rw [hfp, if_neg Bool.false_ne_true] at hsome
      have hrest := ih hnd.2 hsome
      have hk : k ∈ rest.map Prod.fst := mem_keys_of_findVal rest k e hrest.1
      have hp : ¬ p.1 = k := fun hh => hnd.1 (hh ▸ hk)
      simp [findVal, hp, hrest]

/-! ### Claim C2 -/

/-- C2: if the entry stored under `k` has `expiresAt < now`, then `get(k)`
at `now` returns absent and physically removes the entry, so the resulting
cache's `keys()` no longer contains `k`.  Since `get` returns a value only
when the stored entry satisfies `now ≤ expiresAt`, `get` never returns an
entry whose `expiresAt` has passed. -/
theorem get_expired_removes (c : ApiCache α) (k : String) (now : Nat)
    (e : CacheContent α) (hfind : findVal k c.cache = some e)
    (he : e.expiresAt < now) :
    (c.get k now).1 = none ∧ k ∉ ((c.get k now).2).keys := by
  have hget : c.get k now = (none, c.delete k) := by
    simp [ApiCache.get, hfind, he]
  rw [hget]
  exact ⟨rfl, not_mem_keys_delete c k⟩

/-- Witness for C2 at a concrete input. -/
theorem get_expired_removes_witness :
    findVal "k" [("k", (⟨7, 5000⟩ : CacheContent Nat))] = some ⟨7, 5000⟩ ∧
    5000 < 6000 ∧
    (((⟨[("k", ⟨7, 5000⟩)]⟩ : ApiCache Nat).get "k" 6000).1 = none ∧
      "k" ∉ (((⟨[("k", ⟨7, 5000⟩)]⟩ : ApiCache Nat).get "k" 6000).2).keys) :=
  ⟨rfl, by decide,
    get_expired_removes ⟨[("k", ⟨7, 5000⟩)]⟩ "k" 6000 ⟨7, 5000⟩ rfl (by decide)⟩

/-! ### Claim C5 -/

/-- C5: `cleanExpired()` at instant `now` removes exactly the expired
entries: an entry survives the sweep iff it was present and satisfies
`now ≤ expiresAt`; every surviving entry is still retrievable by `get`.
The `Nodup` hypothesis states that the backing map binds each key once,
which the JS `Map` guarantees. -/
theorem cleanExpired_exact (c : ApiCache α) (now : Nat)
    (hnd : c.keys.Nodup) :
    (∀ k e, findVal k (c.cleanExpired now).cache = some e ↔
      (findVal k c.cache = some e ∧ now ≤ e.expiresAt)) ∧
    (∀ k e, findVal k c.cache = some e → now ≤ e.expiresAt →
      ((c.cleanExpired now).get k now).1 = some e.data) := by
  have hchar : ∀ k e, findVal k (c.cleanExpired now).cache = some e ↔
      (findVal k c.cache = some e ∧ now ≤ e.expiresAt) := by
    intro k e
    constructor
    · intro hs
      have := findVal_filter_some c.cache _ k e hnd hs
      refine ⟨this.1, ?_⟩
      have hb := this.2
      simp at hb
      exact hb
    · intro ⟨hfind, hle⟩
      exact findVal_filter_of_pos c.cache k e _ hfind (by simp [Nat.not_lt_of_le hle])
  refine ⟨hchar, ?_⟩
  intro k e hfind hle
  have hs := (hchar k e).mpr ⟨hfind, hle⟩
  simp [ApiCache.get, hs, Nat.not_lt_of_le hle]

/-- Witness for C5: three entries with TTLs 5 s, 10 s, 60 s set at t = 0;
the sweep at t = 7 s keeps the 10 s entry retrievable. -/
theorem cleanExpired_exact_witness :
    ((((ApiCache.empty (α := Nat)).set "a" 5 5 0).set "b" 10 10 0).set
        "c" 60 60 0).keys.Nodup ∧
    ((((((ApiCache.empty (α := Nat)).set "a" 5 5 0).set "b" 10 10 0).set
        "c" 60 60 0).cleanExpired 7000).get "b" 7000).1 = some 10 :=
  ⟨by decide,
    (cleanExpired_exact
      ((((ApiCache.empty (α := Nat)).set "a" 5 5 0).set "b" 10 10 0).set
        "c" 60 60 0) 7000 (by decide)).2 "b" ⟨10, 10000⟩ rfl (by decide)⟩

/-! ### Claim C6 -/

/-- C6 as stated is false: with TTL 0, `expiresAt = now`, and `get` at the
very instant of the `set` (`Date.now()` unchanged) still returns the value
because expiry requires strict `now > expiresAt`.  Concretely:
`set("k", 7, 0)` at t = 1000 then `get("k")` at t = 1000 returns `7`, not
absent. -/
theorem ttl_zero_get_at_set_instant :
    (((ApiCache.empty (α := Nat)).set "k" 7 0 1000).get "k" 1000).1 = some 7 := by
  decide

/-- C6 amended: with TTL 0 the entry carries `expiresAt = now`, so every
`get(k)` strictly after the instant of the `set` returns absent. -/
theorem ttl_zero_get_after (c : ApiCache α) (k : String) (v : α)
    (now1 now2 : Nat) (h : now1 < now2) :
    ((c.set k v 0 now1).get k now2).1 = none := by
  unfold ApiCache.get
  rw [show (c.set k v 0 now1).cache = storeSet k ⟨v, now1 + 0 * 1000⟩ c.cache from rfl]
  rw [findVal_storeSet_self]
  simp only [Nat.mul_zero, Nat.zero_mul, Nat.add_zero]
  rw [if_pos (by simpa using h)]

/-- Witness for the amended C6. -/
theorem ttl_zero_get_after_witness :
    (0 : Nat) < 1 ∧
    (((ApiCache.empty (α := Nat)).set "k" 7 0 0).get "k" 1).1 = none :=
  ⟨by decide, ttl_zero_get_after ApiCache.empty "k" 7 0 1 (by decide)⟩

/-! ### Claim C7 -/

/-- C7: `delete(k)` removes the entry under `k` and leaves every other key
unchanged; it is a total operation, so an absent key is not an error;
`clear()` empties the store regardless of TTLs. -/
theorem delete_frame_and_clear (c : ApiCache α) (k : String) :
    findVal k (c.delete k).cache = none ∧
    (∀ k2, k2 ≠ k → findVal k2 (c.delete k).cache = findVal k2 c.cache) ∧
    c.clear.cache = [] := by
  refine ⟨?_, fun k2 h => findVal_delete_ne c k k2 h, rfl⟩
  apply findVal_eq_none_of_not_mem
  exact not_mem_keys_delete c k

/-- Witness for C7: deleting `"a"` leaves `"b"` untouched. -/
theorem delete_frame_and_clear_witness :
    findVal "b" ((⟨[("a", (⟨1, 9⟩ : CacheContent Nat)), ("b", ⟨2, 9⟩)]⟩ :
        ApiCache Nat).delete "a").cache =
      findVal "b" [("a", (⟨1, 9⟩ : CacheContent Nat)), ("b", ⟨2, 9⟩)] :=
  (delete_frame_and_clear ⟨[("a", ⟨1, 9⟩), ("b", ⟨2, 9⟩)]⟩ "a").2.1 "b" (by decide)

/-! ### The compute-and-cache wrappers

`getCachedData` and `withCache` are `async` functions over the singleton
cache.  A JavaScript value is `null` or a payload (`JsVal`); the underlying
asynchronous operation is modelled as a world transformer
`ω → Except ε (JsVal β) × ω`, where the world `ω` records the side effects
of actually invoking the operation (e.g. an invocation counter) and
`Except` models resolution versus rejection.  Each wrapper call takes the
current instant, cache state and world, and returns the outcome together
with the new cache state and world. -/

/-- A JavaScript value: `null` or a payload of type `β`.  `ApiCache.get`
returns `null` both for a missing or expired key and when the stored data
is itself `null`, so the wrappers' `cached !== null` test cannot tell a
stored `null` from a miss. -/
inductive JsVal (β : Type) where
  | null : JsVal β
  | val : β → JsVal β
  deriving DecidableEq, Repr

/-- `getCachedData(key, fetchFn, ttlSeconds)`: `apiCache.get(key)`; if the
result is not `null` return it, else `await fetchFn()`, store a successful
result with `apiCache.set(key, freshData, ttlSeconds)` and return it; a
rejection propagates and stores nothing. -/
def getCachedData (key : String) (fetchFn : ω → Except ε (JsVal β) × ω)
    (ttlSeconds : Nat) (now : Nat) (c : ApiCache (JsVal β)) (w : ω) :
    Except ε (JsVal β) × ApiCache (JsVal β) × ω :=
  let r := c.get key now
  match r.1 with
  | some (JsVal.val b) => (Except.ok (JsVal.val b), r.2, w)
  | _ =>
    match fetchFn w with
    | (Except.ok freshData, w2) =>
      (Except.ok freshData, r.2.set key freshData ttlSeconds now, w2)
    | (Except.error e, w2) => (Except.error e, r.2, w2)

/-- `withCache(fn, keyFn, ttlSeconds)` applied to `args`: the returned
closure computes `cacheKey = keyFn(...args)`, then runs the same body as
`getCachedData` with `fn(...args)` as the underlying operation. -/
def withCache (fn : σ → ω → Except ε (JsVal β) × ω) (keyFn : σ → String)
    (ttlSeconds : Nat) (args : σ) (now : Nat) (c : ApiCache (JsVal β))
    (w : ω) : Except ε (JsVal β) × ApiCache (JsVal β) × ω :=
  let cacheKey := keyFn args
  let r := c.get cacheKey now
  match r.1 with
  | some (JsVal.val b) => (Except.ok (JsVal.val b), r.2, w)
  | _ =>
    match fn args w with
    | (Except.ok result, w2) =>
      (Except.ok result, r.2.set cacheKey result ttlSeconds now, w2)
    | (Except.error e, w2) => (Except.error e, r.2, w2)

theorem get_absent (c : ApiCache α) (k : String) (now : Nat)
    (h : findVal k c.cache = none) : c.get k now = (none, c) := by
  simp [ApiCache.get, h]

theorem withCache_runs_getCachedData (fn : σ → ω → Except ε (JsVal β) × ω)
    (keyFn : σ → String) (ttlSeconds : Nat) (args : σ) (now : Nat)
    (c : ApiCache (JsVal β)) (w : ω) :
    withCache fn keyFn ttlSeconds args now c w =
      getCachedData (keyFn args) (fn args) ttlSeconds now c w := rfl

/-- Test fixture: an underlying operation that counts its invocations in
the world and resolves to `v`. -/
def countingOp (v : Nat) : Nat → Except Unit (JsVal Nat) × Nat :=
  fun n => (Except.ok (JsVal.val v), n + 1)

/-- Test fixture: an underlying operation that counts its invocations and
rejects. -/
def failingOp : Nat → Except Unit (JsVal Nat) × Nat :=
  fun n => (Except.error (), n + 1)

/-- Test fixture: an underlying operation that counts its invocations and
resolves to `null`. -/
def nullOp : Nat → Except Unit (JsVal Nat) × Nat :=
  fun n => (Except.ok JsVal.null, n + 1)

/-! ### Claim C3 -/

/-- C3 as stated is false: an underlying operation may succeed by
resolving to `null`; the first call then succeeds, but the second call
with the same key at the same instant (well within TTL 60) invokes the
underlying operation again — the invocation counter reaches 2, not 1. -/
theorem wrapper_memoizes_counterexample :
    (getCachedData "k" nullOp 60 0 ApiCache.empty 0).1 =
        Except.ok JsVal.null ∧
    (getCachedData "k" nullOp 60 0 ApiCache.empty 0).2.2 = 1 ∧
    (getCachedData "k" nullOp 60 0
        (getCachedData "k" nullOp 60 0 ApiCache.empty 0).2.1
        (getCachedData "k" nullOp 60 0 ApiCache.empty 0).2.2).2.2 = 2 ∧
    ¬ (getCachedData "k" nullOp 60 0
        (getCachedData "k" nullOp 60 0 ApiCache.empty 0).2.1
        (getCachedData "k" nullOp 60 0 ApiCache.empty 0).2.2).2.2 = 1 := by
  refine ⟨rfl, rfl, rfl, by decide⟩

/-- C3 amended: provided the derived key is initially absent and the first
call's result is non-`null`, a second call with the same derived key within
the TTL window returns the first call's result without invoking the
underlying operation again (the world stays at `w1`, the state after the
single invocation), and a call with a different (absent) derived key
invokes the underlying operation again.  `withCache` runs the same
computation as `getCachedData` on the derived key, so both wrappers are
covered. -/
theorem wrapper_memoizes (key : String) (fetch : ω → Except ε (JsVal β) × ω)
    (ttl now1 now2 : Nat) (c0 : ApiCache (JsVal β)) (w0 w1 : ω) (b : β)
    (h0 : findVal key c0.cache = none)
    (hok : fetch w0 = (Except.ok (JsVal.val b), w1))
    (httl : now2 ≤ now1 + ttl * 1000) :
    (∀ (σ2 : Type) (fn : σ2 → ω → Except ε (JsVal β) × ω)
        (keyFn : σ2 → String) (args : σ2),
      withCache fn keyFn ttl args now1 c0 w0 =
        getCachedData (keyFn args) (fn args) ttl now1 c0 w0) ∧
    getCachedData key fetch ttl now1 c0 w0 =
      (Except.ok (JsVal.val b), c0.set key (JsVal.val b) ttl now1, w1) ∧
    getCachedData key fetch ttl now2 (c0.set key (JsVal.val b) ttl now1) w1 =
      (Except.ok (JsVal.val b), c0.set key (JsVal.val b) ttl now1, w1) ∧
    (∀ (key2 : String) (fetch2 : ω → Except ε (JsVal β) × ω),
      key2 ≠ key → findVal key2 c0.cache = none →
      (getCachedData key2 fetch2 ttl now2
          (c0.set key (JsVal.val b) ttl now1) w1).2.2 = (fetch2 w1).2) := by
  have hget1 := get_absent c0 key now1 h0
  refine ⟨fun σ2 fn keyFn args => rfl, ?_, ?_, ?_⟩
  · simp [getCachedData, hget1, hok]
  · have hfind2 : findVal key (c0.set key (JsVal.val b) ttl now1).cache =
        some ⟨JsVal.val b, now1 + ttl * 1000⟩ :=
      findVal_storeSet_self c0.cache key _
    have hget2 : (c0.set key (JsVal.val b) ttl now1).get key now2 =
        (some (JsVal.val b), c0.set key (JsVal.val b) ttl now1) := by
      simp [ApiCache.get, hfind2, Nat.not_lt_of_le httl]
    simp [getCachedData, hget2]
  · intro key2 fetch2 hne h2
    have hfind3 : findVal key2 (c0.set key (JsVal.val b) ttl now1).cache = none := by
      rw [show (c0.set key (JsVal.val b) ttl now1).cache =
        storeSet key ⟨JsVal.val b, now1 + ttl * 1000⟩ c0.cache from rfl]
      rw [findVal_storeSet_ne c0.cache key key2 _ hne]
      exact h2
    have hget3 := get_absent _ key2 now2 hfind3
    rcases hf2 : fetch2 w1 with ⟨r2, w2⟩
    cases r2 <;> simp [getCachedData, hget3, hf2]

/-- Witness for the amended C3 at a concrete input. -/
theorem wrapper_memoizes_witness :
    findVal "k" (ApiCache.empty (α := JsVal Nat)).cache = none ∧
    countingOp 7 0 = (Except.ok (JsVal.val 7), 1) ∧
    (60000 : Nat) ≤ 0 + 60 * 1000 ∧
    getCachedData "k" (countingOp 7) 60 60000
        ((ApiCache.empty).set "k" (JsVal.val 7) 60 0) 1 =
      (Except.ok (JsVal.val 7), (ApiCache.empty).set "k" (JsVal.val 7) 60 0, 1) :=
  ⟨rfl, rfl, by decide,
    (wrapper_memoizes "k" (countingOp 7) 60 0 60000 ApiCache.empty 0 1 7
      rfl rfl (by decide)).2.2.1⟩

/-! ### Claim C4 -/

/-- C4: if the underlying operation rejects, both wrappers propagate that
same error, the cache is left exactly as it was (nothing stored under the
key), and a subsequent call with the same key invokes the underlying
operation again. -/
theorem wrapper_error_not_cached (key : String)
    (fetch : ω → Except ε (JsVal β) × ω) (ttl now1 now2 : Nat)
    (c0 : ApiCache (JsVal β)) (w0 w1 : ω) (e : ε)
    (h0 : findVal key c0.cache = none)
    (herr : fetch w0 = (Except.error e, w1)) :
    (∀ (σ2 : Type) (fn : σ2 → ω → Except ε (JsVal β) × ω)
        (keyFn : σ2 → String) (args : σ2),
      withCache fn keyFn ttl args now1 c0 w0 =
        getCachedData (keyFn args) (fn args) ttl now1 c0 w0) ∧
    getCachedData key fetch ttl now1 c0 w0 = (Except.error e, c0, w1) ∧
    (∀ fetch2 : ω → Except ε (JsVal β) × ω,
      (getCachedData key fetch2 ttl now2 c0 w1).2.2 = (fetch2 w1).2) := by
  have hget1 := get_absent c0 key now1 h0
  refine ⟨fun σ2 fn keyFn args => rfl, ?_, ?_⟩
  · simp [getCachedData, hget1, herr]
  · intro fetch2
    have hget2 := get_absent c0 key now2 h0
    rcases hf2 : fetch2 w1 with ⟨r2, w2⟩
    cases r2 <;> simp [getCachedData, hget2, hf2]

/-- Witness for C4 at a concrete input. -/
theorem wrapper_error_not_cached_witness :
    findVal "k" (ApiCache.empty (α := JsVal Nat)).cache = none ∧
    failingOp 0 = (Except.error (), 1) ∧
    getCachedData "k" failingOp 60 0 ApiCache.empty 0 =
      (Except.error (), ApiCache.empty, 1) :=
  ⟨rfl, rfl,
    (wrapper_error_not_cached "k" failingOp 60 0 0 ApiCache.empty 0 1 ()
      rfl rfl).2.1⟩

/-! ### Claim C8 -/

/-- C8: when the underlying operation resolves to `null`, the wrappers
return `null` and store it, yet the stored `null` is indistinguishable from
a miss under the `cached !== null` test, so every subsequent call with the
same key — at any instant, within the TTL or not — invokes the underlying
operation again.  `withCache` runs the same computation as `getCachedData`
on the derived key, so both wrappers are covered. -/
theorem wrapper_null_not_served (key : String)
    (fetch : ω → Except ε (JsVal β) × ω) (ttl now1 now2 : Nat)
    (c0 : ApiCache (JsVal β)) (w0 w1 : ω)
    (h0 : findVal key c0.cache = none)
    (hnull : fetch w0 = (Except.ok JsVal.null, w1)) :
    (∀ (σ2 : Type) (fn : σ2 → ω → Except ε (JsVal β) × ω)
        (keyFn : σ2 → String) (args : σ2),
      withCache fn keyFn ttl args now1 c0 w0 =
        getCachedData (keyFn args) (fn args) ttl now1 c0 w0) ∧
    getCachedData key fetch ttl now1 c0 w0 =
      (Except.ok JsVal.null, c0.set key JsVal.null ttl now1, w1) ∧
    findVal key (c0.set key JsVal.null ttl now1).cache =
      some ⟨JsVal.null, now1 + ttl * 1000⟩ ∧
    (∀ fetch2 : ω → Except ε (JsVal β) × ω,
      (getCachedData key fetch2 ttl now2
          (c0.set key JsVal.null ttl now1) w1).2.2 = (fetch2 w1).2) := by
  have hget1 := get_absent c0 key now1 h0
  have hfind2 : findVal key (c0.set key JsVal.null ttl now1).cache =
      some ⟨JsVal.null, now1 + ttl * 1000⟩ :=
    findVal_storeSet_self c0.cache key _
  refine ⟨fun σ2 fn keyFn args => rfl, ?_, hfind2, ?_⟩
  · simp [getCachedData, hget1, hnull]
  · intro fetch2
    rcases hf2 : fetch2 w1 with ⟨r2, w2⟩
    by_cases hlt : now1 + ttl * 1000 < now2
    · have hget2 : (c0.set key JsVal.null ttl now1).get key now2 =
          (none, (c0.set key JsVal.null ttl now1).delete key) := by
        simp [ApiCache.get, hfind2, hlt]
      cases r2 <;> simp [getCachedData, hget2, hf2]
    · have hget2 : (c0.set key JsVal.null ttl now1).get key now2 =
          (some JsVal.null, c0.set key JsVal.null ttl now1) := by
        simp [ApiCache.get, hfind2, hlt]
      cases r2 <;> simp [getCachedData, hget2, hf2]

/-- Witness for C8 at a concrete input: the stored `null` is not served;
the second call bumps the invocation counter again. -/
theorem wrapper_null_not_served_witness :
    findVal "k" (ApiCache.empty (α := JsVal Nat)).cache = none ∧
    nullOp 0 = (Except.ok JsVal.null, 1) ∧
    (getCachedData "k" nullOp 60 0
        ((ApiCache.empty).set "k" JsVal.null 60 0) 1).2.2 = (nullOp 1).2 :=
  ⟨rfl, rfl,
    (wrapper_null_not_served "k" nullOp 60 0 0 ApiCache.empty 0 1
      rfl rfl).2.2.2 nullOp⟩

/-! ### The authentication boundary (`lib/auth.ts`)

The axios calls are modelled by their outcome: `Except.ok` carries the
response payload (`response.data`), `Except.error` carries an `AxiosError`
whose optional `response` field holds the HTTP status and the optional
server-provided message (`error.response.data?.error?.message`).  An
absent `response` models a network or setup failure. -/

/-- `AuthError` from `lib/auth.ts`; the constructor defaults `statusCode`
to 401 when none is supplied. -/
structure AuthError where
  message : String
  statusCode : Nat
  deriving DecidableEq, Repr

/-- The data reachable on a received axios error response:
`response.status` and `response.data?.error?.message`. -/
structure AxiosResponse where
  status : Nat
  errorMessage : Option String
  deriving DecidableEq, Repr

/-- An axios failure: `error.response` is present iff the server responded
(with a non-2xx status); otherwise the request failed before a response. -/
structure AxiosError where
  response : Option AxiosResponse
  deriving DecidableEq, Repr

/-- `role` object on a Strapi user. -/
structure Role where
  id : Nat
  name : String
  description : String
  type : String
  deriving DecidableEq, Repr

/-- `User` from `lib/auth.ts`. -/
structure User where
  id : Nat
  username : String
  email : String
  provider : String
  confirmed : Bool
  blocked : Bool
  createdAt : String
  updatedAt : String
  role : Option Role
  deriving DecidableEq, Repr

/-- `LoginResponse` from `lib/auth.ts`. -/
structure LoginResponse where
  jwt : String
  user : User
  deriving DecidableEq, Repr

/-- The JS idiom `m || fallback` on the optional server message: the
fallback is used whenever the message is falsy, i.e. absent (`undefined`)
or the empty string. -/
def jsOrElse (m : Option String) (fallback : String) : String :=
  match m with
  | some s => if s = "" then fallback else s
  | none => fallback

/-- `login(identifier, password)`: on success return `response.data`; on
failure, if `error.response` exists throw
`AuthError(error.response.data?.error?.message || 'Authentication failed',
error.response.status)`, else `AuthError('Authentication request failed')`
with the defaulted status 401. -/
def login (postResult : Except AxiosError LoginResponse) :
    Except AuthError LoginResponse :=
  match postResult with
  | Except.ok r => Except.ok r
  | Except.error err =>
    match err.response with
    | some resp =>
      Except.error ⟨jsOrElse resp.errorMessage "Authentication failed",
        resp.status⟩
    | none => Except.error ⟨"Authentication request failed", 401⟩

/-- `register(username, email, password)`: same catch shape as `login`
with the registration messages. -/
def register (postResult : Except AxiosError LoginResponse) :
    Except AuthError LoginResponse :=
  match postResult with
  | Except.ok r => Except.ok r
  | Except.error err =>
    match err.response with
    | some resp =>
      Except.error ⟨jsOrElse resp.errorMessage "Registration failed",
        resp.status⟩
    | none => Except.error ⟨"Registration request failed", 401⟩

/-- `getCurrentUser(token)`: same catch shape with the profile messages. -/
def getCurrentUser (_token : String) (getResult : Except AxiosError User) :
    Except AuthError User :=
  match getResult with
  | Except.ok r => Except.ok r
  | Except.error err =>
    match err.response with
    | some resp =>
      Except.error ⟨jsOrElse resp.errorMessage "Failed to retrieve user profile",
        resp.status⟩
    | none => Except.error ⟨"User profile request failed", 401⟩

/-! ### Claim C9 -/

/-- C9: every error raised by `login`, `register` and `getCurrentUser`
carries a numeric status code: when the server responded, the raised
`AuthError` carries that response's status together with the
server-provided message — verbatim when that message is truthy
(non-empty), and the per-function fallback message when the server sent
none or an empty string (the JS `||` treats both as falsy); when no
response is available, the status defaults to 401. -/
theorem auth_errors_carry_status (e : AxiosError) (tok : String) :
    (∀ resp, e.response = some resp →
      login (Except.error e) =
        Except.error ⟨jsOrElse resp.errorMessage "Authentication failed",
          resp.status⟩ ∧
      register (Except.error e) =
        Except.error ⟨jsOrElse resp.errorMessage "Registration failed",
          resp.status⟩ ∧
      getCurrentUser tok (Except.error e) =
        Except.error ⟨jsOrElse resp.errorMessage "Failed to retrieve user profile",
          resp.status⟩ ∧
      (∀ m fallback, resp.errorMessage = some m → m ≠ "" →
        jsOrElse resp.errorMessage fallback = m)) ∧
    (e.response = none →
      login (Except.error e) =
        Except.error ⟨"Authentication request failed", 401⟩ ∧
      register (Except.error e) =
        Except.error ⟨"Registration request failed", 401⟩ ∧
      getCurrentUser tok (Except.error e) =
        Except.error ⟨"User profile request failed", 401⟩) := by
  constructor
  · intro resp hresp
    refine ⟨by simp [login, hresp], by simp [register, hresp],
      by simp [getCurrentUser, hresp], ?_⟩
    intro m fallback hm hne
    simp [jsOrElse, hm, hne]
  · intro hnone
    exact ⟨by simp [login, hnone], by simp [register, hnone],
      by simp [getCurrentUser, hnone]⟩

/-- Witness for C9: a 404 with a truthy server message carried verbatim,
a 500 with an empty (falsy) server message replaced by the fallback, and a
response-less failure defaulting to 401. -/
theorem auth_errors_carry_status_witness :
    (⟨some ⟨404, some "Not found"⟩⟩ : AxiosError).response =
      some ⟨404, some "Not found"⟩ ∧
    login (Except.error ⟨some ⟨404, some "Not found"⟩⟩) =
      Except.error ⟨"Not found", 404⟩ ∧
    login (Except.error ⟨some ⟨500, some ""⟩⟩) =
      Except.error ⟨"Authentication failed", 500⟩ ∧
    login (Except.error ⟨none⟩) =
      Except.error ⟨"Authentication request failed", 401⟩ :=
  ⟨rfl,
    ((auth_errors_carry_status ⟨some ⟨404, some "Not found"⟩⟩ "t").1
      ⟨404, some "Not found"⟩ rfl).1,
    ((auth_errors_carry_status ⟨some ⟨500, some ""⟩⟩ "t").1
      ⟨500, some ""⟩ rfl).1,
    ((auth_errors_carry_status ⟨none⟩ "t").2 rfl).1⟩

/-! ### The preview route (`src/app/api/preview/route.ts`)

`searchParams.get` yields `null` for a missing query parameter and
`process.env.PREVIEW_SECRET` is `undefined` when unset; both are modelled
as `Option String`.  JavaScript strict comparison `secret !==
process.env.PREVIEW_SECRET` is false only when both sides are the same
string (`null !== undefined`, and neither equals a string), and `!slug` is
true for `null` and for the empty string. -/

/-- `secret === process.env.PREVIEW_SECRET` under JS strict equality. -/
def secretMatches (secret envSecret : Option String) : Bool :=
  match secret, envSecret with
  | some s, some t => decide (s = t)
  | _, _ => false

/-- JS falsiness of `searchParams.get('slug')`: `null` or `""`. -/
def isFalsyString : Option String → Bool
  | none => true
  | some s => decide (s = "")

/-- Outcome of the preview `GET` handler: a 401 JSON error (no cookie
set), or a redirect that sets the `__preview_mode` cookie with the given
`maxAge` in seconds. -/
inductive PreviewResponse where
  | unauthorized (status : Nat)
  | redirect (location : String) (cookieMaxAge : Nat)
  deriving DecidableEq, Repr

/-- The preview `GET` handler: 401 when
`secret !== process.env.PREVIEW_SECRET || !slug`; otherwise redirect to
`/${slug}` with the preview cookie at `maxAge: 60 * 60`. -/
def previewGET (slug secret envSecret : Option String) : PreviewResponse :=
  if !secretMatches secret envSecret || isFalsyString slug then
    PreviewResponse.unauthorized 401
  else
    PreviewResponse.redirect ("/" ++ slug.getD "") (60 * 60)

/-! ### Claim C10 -/

/-- C10: the preview handler succeeds exactly when the `secret` query
parameter equals the configured shared secret and a (non-empty) slug is
present; on success it redirects to `/${slug}` with a 1-hour
(3600-second) preview cookie, and otherwise it responds 401 without
setting a cookie. -/
theorem preview_route_contract (slug secret envSecret : Option String) :
    (∀ s t, slug = some s → s ≠ "" → secret = some t → envSecret = some t →
      previewGET slug secret envSecret =
        PreviewResponse.redirect ("/" ++ s) 3600) ∧
    (∀ loc age, previewGET slug secret envSecret =
        PreviewResponse.redirect loc age →
      secretMatches secret envSecret = true ∧
      ∃ s, slug = some s ∧ s ≠ "" ∧ loc = "/" ++ s ∧ age = 3600) ∧
    ((secretMatches secret envSecret = false ∨ slug = none ∨ slug = some "") →
      previewGET slug secret envSecret = PreviewResponse.unauthorized 401) := by
  refine ⟨?_, ?_, ?_⟩
  · intro s t hs hne hsec henv
    subst hs; subst hsec; subst henv
    simp [previewGET, secretMatches, isFalsyString, hne]
  · intro loc age h
    by_cases hm : secretMatches secret envSecret
    · by_cases hf : isFalsyString slug
      · simp [previewGET, hm, hf] at h
      · refine ⟨hm, ?_⟩
        cases slug with
        | none => simp [isFalsyString] at hf
        | some s =>
          have hne : s ≠ "" := by
            simpa [isFalsyString] using hf
          simp [previewGET, hm, isFalsyString, hne] at h
          exact ⟨s, rfl, hne, h.1.symm, h.2.symm⟩
    · simp [previewGET, Bool.eq_false_iff.mpr hm] at h
  · intro h
    rcases h with hm | hn | he
    · simp [previewGET, hm]
    · subst hn
      simp [previewGET, isFalsyString]
    · subst he
      simp [previewGET, isFalsyString]

/-- Witness for C10 at a concrete input. -/
theorem preview_route_contract_witness :
    previewGET (some "about") (some "s3cret") (some "s3cret") =
      PreviewResponse.redirect "/about" 3600 :=
  (preview_route_contract (some "about") (some "s3cret") (some "s3cret")).1
    "about" "s3cret" rfl (by decide) rfl rfl

end StrapiUmowa
